import Mathlib

/-!
Verification development for the macrauchenia-ssg adapter framework.

The development shallowly embeds the validator set, the command-runner
protocol, the result protocol and the lifecycle state machine of the
Coleslaw (Common Lisp), Franklin (Julia) and ScalaTex (Scala/mill)
adapters.  Loosely typed JavaScript inputs are modelled by `JSVal`,
process spawning by an oracle `Runner`, and each tool operation is
instrumented to record the list of spawn calls it performs.
-/

deriving instance DecidableEq for Except

/-- A loosely typed JavaScript value, as received by an adapter operation. -/
inductive JSVal where
  | undef
  | null
  | bool (b : Bool)
  | num (n : Int)
  | str (s : String)
deriving DecidableEq

/-- JavaScript truthiness of a value. -/
def JSVal.truthy : JSVal → Bool
  | .undef => false
  | .null => false
  | .bool b => b
  | .num n => n != 0
  | .str s => s != ""

/-- Whether a value is a string (the `typeof str === "string"` check). -/
def JSVal.isString : JSVal → Bool
  | .str _ => true
  | _ => false

/-- ASCII letter test, the `a-zA-Z` part of the allow-list regex. -/
def isAsciiAlpha (c : Char) : Bool :=
  (decide (65 ≤ c.toNat) && decide (c.toNat ≤ 90)) ||
  (decide (97 ≤ c.toNat) && decide (c.toNat ≤ 122))

/-- ASCII digit test, the `0-9` part of the regexes. -/
def isDig (c : Char) : Bool :=
  decide (48 ≤ c.toNat) && decide (c.toNat ≤ 57)

/-- The backtick character, code 96. -/
def backtickChar : Char := Char.ofNat 96

/-- The single-quote character, code 39. -/
def singleQuoteChar : Char := Char.ofNat 39

/-- Characters rejected by `sanitizeLispString`, the class of the regex
in the Coleslaw adapter. -/
def lispRejectChars : List Char :=
  ("()\";#|\\").data ++ [backtickChar, singleQuoteChar]

/-- Characters rejected by `sanitizeJuliaString`, the class of the regex
in the Franklin adapter. -/
def juliaRejectChars : List Char :=
  (";$()\\\"\n\r").data ++ [backtickChar]

/-- Characters rejected by the ScalaTex adapter's `validatePath` regex. -/
def scalatexPathRejectChars : List Char :=
  (";&|$").data ++ [backtickChar]

/-- Membership of the allow-list regex class: alphanumerics, dots,
underscores, dashes, slashes and spaces. -/
def allowChar (c : Char) : Bool :=
  isAsciiAlpha c || isDig c || c == '.' || c == '_' || c == '-' || c == '/' || c == ' '

/-- `true` when some character of the string belongs to the reject class. -/
def hasRejectChar (rej : List Char) (s : String) : Bool :=
  s.data.any (fun c => rej.contains c)

/-- Full match of the allow-list regex: at least one character, all of
them members of the allow class. -/
def allowListMatch (s : String) : Bool :=
  !s.data.isEmpty && s.data.all allowChar

def lispRejectMsg : String :=
  "Invalid characters in input: Lisp special characters not allowed"

def juliaRejectMsg : String :=
  "Invalid characters in input: Julia special characters not allowed"

def allowListMsg : String :=
  "Invalid characters in input: only alphanumeric, dots, dashes, underscores, slashes, and spaces allowed"

def pathTraversalMsg : String := "Path traversal not allowed"

def invalidPathCharsMsg : String := "Invalid characters in path"

def includesTypeErrorMsg : String := "path.includes is not a function"

def portErrorMsg : String := "Invalid port number: must be between 1 and 65535"

def hostErrorMsg : String := "Invalid host format"

/-- The Coleslaw adapter's `sanitizeLispString`: non-strings become `""`,
strings with a Lisp metacharacter or failing the allow-list raise. -/
def sanitizeLispString (v : JSVal) : Except String String :=
  match v with
  | JSVal.str s =>
    if hasRejectChar lispRejectChars s then Except.error lispRejectMsg
    else if allowListMatch s then Except.ok s
    else Except.error allowListMsg
  | _ => Except.ok ("")

/-- The Franklin adapter's `sanitizeJuliaString`: non-strings become `""`,
strings with a Julia metacharacter or failing the allow-list raise. -/
def sanitizeJuliaString (v : JSVal) : Except String String :=
  match v with
  | JSVal.str s =>
    if hasRejectChar juliaRejectChars s then Except.error juliaRejectMsg
    else if allowListMatch s then Except.ok s
    else Except.error allowListMsg
  | _ => Except.ok ("")

/-- `leadsList pat l` is `true` when `pat` starts the list `l`. -/
def leadsList : List Char → List Char → Bool
  | [], _ => true
  | _ :: _, [] => false
  | a :: as, b :: bs => a == b && leadsList as bs

/-- `occursIn pat l` is `true` when `pat` occurs contiguously in `l`. -/
def occursIn (pat : List Char) : List Char → Bool
  | [] => pat.isEmpty
  | c :: cs => leadsList pat (c :: cs) || occursIn pat cs

/-- JavaScript `s.includes(sub)` on strings. -/
def jsIncludes (s sub : String) : Bool := occursIn sub.data s.data

def dotdot : String := ".."

/-- JavaScript whitespace accepted ahead of the digits by `parseInt`. -/
def isJsSpace (c : Char) : Bool :=
  c == ' ' || c == '\t' || c == '\n' || c == '\r' || c == Char.ofNat 11 || c == Char.ofNat 12

/-- Decimal value of a list of digit characters. -/
def digitsVal (l : List Char) : Nat :=
  l.foldl (fun a c => a * 10 + (c.toNat - 48)) 0

/-- The longest leading run of decimal digits, or `none` when it is empty. -/
def parseDigits (l : List Char) : Option Nat :=
  let ds := l.takeWhile isDig
  if ds.isEmpty then none else some (digitsVal ds)

/-- Optional sign followed by the longest run of decimal digits. -/
def parseSigned : List Char → Option Int
  | [] => none
  | c :: cs =>
    if c == '-' then (parseDigits cs).map (fun n => -(n : Int))
    else if c == '+' then (parseDigits cs).map (fun n => (n : Int))
    else (parseDigits (c :: cs)).map (fun n => (n : Int))

/-- JavaScript `parseInt(s, 10)`: skip whitespace, read an optional sign
and the longest run of decimal digits; `none` models `NaN`. -/
def parseInt10 (s : String) : Option Int :=
  parseSigned (s.data.dropWhile isJsSpace)

/-- The decimal digit character for `d` (`d ≥ 9` clamps to `9`; the
callers only use `d < 10`). -/
def digitChar (d : Nat) : Char :=
  if d = 0 then '0' else if d = 1 then '1' else if d = 2 then '2'
  else if d = 3 then '3' else if d = 4 then '4' else if d = 5 then '5'
  else if d = 6 then '6' else if d = 7 then '7' else if d = 8 then '8' else '9'

/-- Fueled decimal rendering of a natural number, most significant digit
first.  The fuel only needs to exceed the number itself. -/
def natToDigitsAux : Nat → Nat → List Char
  | 0, _ => []
  | fuel + 1, n =>
    if n < 10 then [digitChar n]
    else natToDigitsAux fuel (n / 10) ++ [digitChar (n % 10)]

/-- Decimal rendering of a natural number. -/
def natToDigits (n : Nat) : List Char := natToDigitsAux (n + 1) n

/-- JavaScript `String(n)` for an integral number. -/
def intToDecString (n : Int) : String :=
  if n < 0 then String.mk ('-' :: natToDigits n.natAbs)
  else String.mk (natToDigits n.toNat)

/-- JavaScript `ToString` on the values of the model. -/
def jsToString : JSVal → String
  | JSVal.undef => "undefined"
  | JSVal.null => "null"
  | JSVal.bool true => "true"
  | JSVal.bool false => "false"
  | JSVal.num n => intToDecString n
  | JSVal.str s => s

/-- The `isNaN` / range test of `validatePort` applied to the parse. -/
def portCheck : Option Int → Except String Int
  | none => Except.error portErrorMsg
  | some p =>
    if p < 1 then Except.error portErrorMsg
    else if 65535 < p then Except.error portErrorMsg
    else Except.ok p

/-- The shared `validatePort`: `parseInt(port, 10)`, rejecting `NaN` and
values outside `[1, 65535]`, returning the parsed integer otherwise. -/
def validatePort (v : JSVal) : Except String Int :=
  portCheck (parseInt10 (jsToString v))

/-- Captured output of a completed process, as produced by the runtime. -/
structure CmdOutput where
  success : Bool
  stdout : String
  stderr : String
  code : Int
deriving DecidableEq

/-- One process-spawn request: binary, argument array, working directory
(`none` meaning the runtime's current directory) and the timeout bound
passed to the runtime, when any. -/
structure SpawnCall where
  bin : String
  args : List String
  cwd : Option String
  timeoutMs : Option Nat
deriving DecidableEq

/-- The result record a tool operation returns.  `code = none` models a
result object built without the `code` field. -/
structure AdapterResult where
  success : Bool
  stdout : String
  stderr : String
  code : Option Int
deriving DecidableEq

/-- The process runner oracle: a spawn either completes with captured
output or raises a spawn-level exception carrying a message. -/
def Runner : Type := SpawnCall → Except String CmdOutput

/-- The catch-all validation/execution failure result built by the
`catch (e)` blocks: `success=false`, empty stdout, message, code 1. -/
def valFailure (msg : String) : AdapterResult :=
  { success := false, stdout := "", stderr := msg, code := some 1 }

/-- `cwd || Deno.cwd()`: a falsy working directory falls back to the
runtime's current directory (`none`). -/
def resolveCwd (c : Option String) : Option String :=
  match c with
  | some s => if s == "" then none else some s
  | none => none

/-- `true` exactly on `Except.error`. -/
def isErr {α : Type} : Except String α → Bool
  | Except.error _ => true
  | Except.ok _ => false

/-- `true` exactly on `Except.ok`. -/
def exceptIsOk {α : Type} : Except String α → Bool
  | Except.ok _ => true
  | Except.error _ => false

/-- `true` when the operation returned (did not throw) a failure result. -/
def resultFailed : Except String AdapterResult → Bool
  | Except.ok res => !res.success
  | Except.error _ => false

/-- The try/catch wrapper of the tool operations: a propagated exception
is converted into the catch-all failure result. -/
def caught (x : Except String AdapterResult × List SpawnCall) :
    Except String AdapterResult × List SpawnCall :=
  match x.1 with
  | Except.ok res => (Except.ok res, x.2)
  | Except.error e => (Except.ok (valFailure e), x.2)

/-- One `Deno.Command` construction plus `output()` capture: the spawn is
recorded, its captured output is copied into a result with the real exit
code, and a spawn-level exception is re-raised. -/
def spawnStep (r : Runner) (call : SpawnCall) :
    Except String AdapterResult × List SpawnCall :=
  match r call with
  | Except.ok out =>
    (Except.ok { success := out.success, stdout := out.stdout, stderr := out.stderr,
                 code := some out.code }, [call])
  | Except.error e => (Except.error e, [call])

/-- The same capture as `spawnStep`, but building the result object
without the `code` field, as the `*_version` tools do. -/
def spawnStepNoCode (r : Runner) (call : SpawnCall) :
    Except String AdapterResult × List SpawnCall :=
  match r call with
  | Except.ok out =>
    (Except.ok { success := out.success, stdout := out.stdout, stderr := out.stderr,
                 code := none }, [call])
  | Except.error e => (Except.error e, [call])

namespace Coleslaw

def sblPath : String := "sbcl"

/-- Coleslaw `validatePath`: falsy inputs become `"."`; otherwise the
input is sanitized and rejected when it contains `".."`. -/
def validatePath (v : JSVal) : Except String String :=
  if v.truthy then
    match sanitizeLispString v with
    | Except.error e => Except.error e
    | Except.ok s =>
      if jsIncludes s dotdot then Except.error pathTraversalMsg else Except.ok s
  else Except.ok (".")

def qlExpr : String := "(ql:quickload :coleslaw)"

/-- Coleslaw `runColeslaw`: spawn sbcl with `--eval` arguments; no
timeout option is passed to the runtime. -/
def runColeslaw (r : Runner) (lispExpr : String) (cwd : Option String) :
    Except String AdapterResult × List SpawnCall :=
  spawnStep r
    { bin := sblPath, args := ["--eval", qlExpr, "--eval", lispExpr, "--quit"],
      cwd := resolveCwd cwd, timeoutMs := none }

/-- The `coleslaw_new_post` tool operation (parameters `path`, `title`;
`title` is declared required by the schema). -/
def newPostExecute (r : Runner) (path title : JSVal) :
    Except String AdapterResult × List SpawnCall :=
  match validatePath path with
  | Except.error e => (Except.ok (valFailure e), [])
  | Except.ok safePath =>
    match sanitizeLispString title with
    | Except.error e => (Except.ok (valFailure e), [])
    | Except.ok safeTitle =>
      caught (runColeslaw r ("(coleslaw:new-post \"" ++ safeTitle ++ "\")") (some safePath))

/-- The `coleslaw_version` tool operation: spawns sbcl `--version`
directly, with no try/catch and no `code` field in its result. -/
def versionExecute (r : Runner) : Except String AdapterResult × List SpawnCall :=
  spawnStepNoCode r
    { bin := sblPath, args := ["--version"], cwd := none, timeoutMs := none }

/-- Coleslaw `connect`: probe `sbcl --version`; spawn exceptions are
caught and leave the adapter unconnected. -/
def connect (r : Runner) (_st : Bool) : Bool × Bool :=
  match r ({ bin := sblPath, args := ["--version"], cwd := none, timeoutMs := none }) with
  | Except.ok out => (out.success, out.success)
  | Except.error _ => (false, false)

/-- Coleslaw `disconnect`: unconditionally clears the connected flag. -/
def disconnect (_st : Bool) : Bool := false

/-- Coleslaw `isConnected`: reads the connected flag. -/
def isConnected (st : Bool) : Bool := st

end Coleslaw

namespace Franklin

def juliaPath : String := "julia"

/-- Franklin `validatePath`: falsy inputs become `"."`; otherwise the
input is sanitized and rejected when it contains `".."`. -/
def validatePath (v : JSVal) : Except String String :=
  if v.truthy then
    match sanitizeJuliaString v with
    | Except.error e => Except.error e
    | Except.ok s =>
      if jsIncludes s dotdot then Except.error pathTraversalMsg else Except.ok s
  else Except.ok (".")

/-- Franklin `runJulia`: spawn julia `-e code`; no timeout option is
passed to the runtime. -/
def runJulia (r : Runner) (code : String) (cwd : Option String) :
    Except String AdapterResult × List SpawnCall :=
  spawnStep r
    { bin := juliaPath, args := ["-e", code], cwd := resolveCwd cwd, timeoutMs := none }

/-- The `franklin_newsite` tool operation (parameters `path`,
`template`); `runJulia` is called without a working directory. -/
def newsiteExecute (r : Runner) (path template : JSVal) :
    Except String AdapterResult × List SpawnCall :=
  match validatePath path with
  | Except.error e => (Except.ok (valFailure e), [])
  | Except.ok safePath =>
    if template.truthy then
      match sanitizeJuliaString template with
      | Except.error e => (Except.ok (valFailure e), [])
      | Except.ok safeTmpl =>
        caught (runJulia r
          ("using Franklin; newsite(\"" ++ safePath ++ "\", template=\"" ++ safeTmpl ++ "\")") none)
    else
      caught (runJulia r ("using Franklin; newsite(\"" ++ safePath ++ "\")") none)

/-- The `franklin_version` tool operation: spawns julia `--version`
directly, with no try/catch and no `code` field in its result. -/
def versionExecute (r : Runner) : Except String AdapterResult × List SpawnCall :=
  spawnStepNoCode r
    { bin := juliaPath, args := ["--version"], cwd := none, timeoutMs := none }

/-- Franklin `connect`: probe `julia --version`; spawn exceptions are
caught and leave the adapter unconnected. -/
def connect (r : Runner) (_st : Bool) : Bool × Bool :=
  match r ({ bin := juliaPath, args := ["--version"], cwd := none, timeoutMs := none }) with
  | Except.ok out => (out.success, out.success)
  | Except.error _ => (false, false)

/-- Franklin `disconnect`: unconditionally clears the connected flag. -/
def disconnect (_st : Bool) : Bool := false

/-- Franklin `isConnected`: reads the connected flag. -/
def isConnected (st : Bool) : Bool := st

end Franklin

namespace Scalatex

def millPath : String := "mill"

def sbtPath : String := "sbt"

/-- ScalaTex `validatePath`: falsy inputs return `null`; string inputs
are rejected on `".."` or on the metacharacter class; truthy non-string
inputs raise the runtime's `includes`-is-not-a-function type error. -/
def validatePath (v : JSVal) : Except String JSVal :=
  if v.truthy then
    match v with
    | JSVal.str s =>
      if jsIncludes s dotdot then Except.error pathTraversalMsg
      else if hasRejectChar scalatexPathRejectChars s then Except.error invalidPathCharsMsg
      else Except.ok (JSVal.str s)
    | _ => Except.error includesTypeErrorMsg
  else Except.ok JSVal.null

/-- ScalaTex `runCommand`: spawn mill with the given argument array; no
timeout option is passed to the runtime. -/
def runCommand (r : Runner) (args : List String) (cwd : Option String) :
    Except String AdapterResult × List SpawnCall :=
  spawnStep r { bin := millPath, args := args, cwd := resolveCwd cwd, timeoutMs := none }

/-- ScalaTex `runSbt`: spawn sbt with the given argument array. -/
def runSbt (r : Runner) (args : List String) (cwd : Option String) :
    Except String AdapterResult × List SpawnCall :=
  spawnStep r { bin := sbtPath, args := args, cwd := resolveCwd cwd, timeoutMs := none }

/-- The `scalatex_version` tool operation: `runCommand(["--version"])`
with no try/catch around it. -/
def versionExecute (r : Runner) : Except String AdapterResult × List SpawnCall :=
  runCommand r ["--version"] none

/-- ScalaTex `connect`: probe mill, fall back to sbt; spawn exceptions
are caught and leave the adapter unconnected. -/
def connect (r : Runner) (_st : Bool) : Bool × Bool :=
  match (runCommand r ["--version"] none).1 with
  | Except.error _ => (false, false)
  | Except.ok res =>
    if res.success then (true, true)
    else
      match (runSbt r ["--version"] none).1 with
      | Except.error _ => (false, false)
      | Except.ok sres => (sres.success, sres.success)

/-- ScalaTex `disconnect`: unconditionally clears the connected flag. -/
def disconnect (_st : Bool) : Bool := false

/-- ScalaTex `isConnected`: reads the connected flag. -/
def isConnected (st : Bool) : Bool := st

end Scalatex

/-- Modelled from the spec: the lifecycle state machine with states
`disconnected`, `connecting`, `connected`, `error`; the implementation
keeps only a boolean `connected` flag, compared to this model through
`absState`. -/
inductive LifecycleState where
  | disconnected
  | connecting
  | connected
  | error
deriving DecidableEq

/-- Modelled from the spec: `connect()` moves through `connecting` and
lands in `connected` or `error` according to the probe outcome,
returning the probe outcome. -/
def specConnect (probeOk : Bool) (_s : LifecycleState) : LifecycleState × Bool :=
  if probeOk then (LifecycleState.connected, true) else (LifecycleState.error, false)

/-- Modelled from the spec: `disconnect()` returns to `disconnected`
from every state. -/
def specDisconnect (_s : LifecycleState) : LifecycleState := LifecycleState.disconnected

/-- Abstraction from the spec's four states onto the implementation's
boolean connected flag. -/
def absState : LifecycleState → Bool
  | LifecycleState.connected => true
  | _ => false

/-- A runner for a missing binary: every spawn raises. -/
def missingBinaryRunner : Runner :=
  fun _ => Except.error ("NotFound: No such file or directory (os error 2)")

def spawnErrorMsg : String := "NotFound: No such file or directory (os error 2)"

/-- A runner for a present, working binary: every spawn exits 0. -/
def presentBinaryRunner : Runner :=
  fun _ => Except.ok ({ success := true, stdout := "1.0.0", stderr := "", code := 0 })

/-- A concrete input holding a Lisp metacharacter (an opening paren). -/
def lispBadInput : String := "a(b"

/-- A concrete input holding a Julia metacharacter (a backtick). -/
def juliaBadInput : String := String.mk ['x', backtickChar, 'y']


/-- The try/catch wrapper always yields a returned result, never a
propagated exception. -/
theorem caught_isOk (x : Except String AdapterResult × List SpawnCall) :
    exceptIsOk (caught x).1 = true := by
  unfold caught
  rcases x with ⟨e, log⟩
  cases e <;> rfl

/-- The try/catch wrapper does not change the spawn log. -/
theorem caught_log (x : Except String AdapterResult × List SpawnCall) :
    (caught x).2 = x.2 := by
  unfold caught
  rcases x with ⟨e, log⟩
  cases e <;> rfl

/-- A spawn step records exactly its own call. -/
theorem spawnStep_log (r : Runner) (call : SpawnCall) :
    (spawnStep r call).2 = [call] := by
  unfold spawnStep
  cases r call <;> rfl

/-- When `sanitizeLispString` accepts a string it returns it unchanged. -/
theorem sanitizeLisp_ok_eq {s t : String}
    (h : sanitizeLispString (JSVal.str s) = Except.ok t) : t = s := by
  simp only [sanitizeLispString] at h
  split at h
  · exact Except.noConfusion h
  · split at h
    · injection h with h
      exact h.symm
    · exact Except.noConfusion h

/-- When `sanitizeJuliaString` accepts a string it returns it unchanged. -/
theorem sanitizeJulia_ok_eq {s t : String}
    (h : sanitizeJuliaString (JSVal.str s) = Except.ok t) : t = s := by
  simp only [sanitizeJuliaString] at h
  split at h
  · exact Except.noConfusion h
  · split at h
    · injection h with h
      exact h.symm
    · exact Except.noConfusion h

/-- A string with a member character is not empty. -/
theorem mem_data_ne_empty {s : String} {c : Char} (h : c ∈ s.data) : s ≠ "" := by
  intro he
  subst he
  have hd : ("" : String).data = [] := rfl
  rw [hd] at h
  exact absurd h (List.not_mem_nil c)

/-- A non-empty string is truthy. -/
theorem truthy_str {s : String} (h : s ≠ "") : (JSVal.str s).truthy = true := by
  show (s != "") = true
  exact bne_iff_ne.mpr h

/-- A string containing a member of the reject class fails the reject
regex test. -/
theorem hasRejectChar_of_mem {rej : List Char} {s : String} {c : Char}
    (hc : c ∈ rej) (hs : c ∈ s.data) : hasRejectChar rej s = true := by
  unfold hasRejectChar
  rw [List.any_eq_true]
  exact ⟨c, hs, List.elem_eq_true_of_mem hc⟩

/-- A string holding a Lisp metacharacter is rejected by the sanitizer. -/
theorem sanitizeLisp_rejects {s : String} {c : Char}
    (hc : c ∈ lispRejectChars) (hs : c ∈ s.data) :
    sanitizeLispString (JSVal.str s) = Except.error lispRejectMsg := by
  simp only [sanitizeLispString]
  rw [hasRejectChar_of_mem hc hs]
  rfl

/-- A string holding a Julia metacharacter is rejected by the sanitizer. -/
theorem sanitizeJulia_rejects {s : String} {c : Char}
    (hc : c ∈ juliaRejectChars) (hs : c ∈ s.data) :
    sanitizeJuliaString (JSVal.str s) = Except.error juliaRejectMsg := by
  simp only [sanitizeJuliaString]
  rw [hasRejectChar_of_mem hc hs]
  rfl

/-- A string in which ".." occurs is not empty. -/
theorem jsIncludes_dotdot_ne_empty {s : String} (h : jsIncludes s dotdot = true) :
    s ≠ "" := by
  intro he
  subst he
  revert h
  decide

/-- A character with code at least 48 differs from any character with a
smaller code. -/
theorem char_beq_false_of_toNat_lt {c x : Char} (h : 48 ≤ c.toNat)
    (hx : x.toNat < 48) : (c == x) = false := by
  cases hq : c == x with
  | false => rfl
  | true =>
    have he : c = x := eq_of_beq hq
    subst he
    omega

/-- The code bounds carried by the digit test. -/
theorem isDig_bounds {c : Char} (h : isDig c = true) :
    48 ≤ c.toNat ∧ c.toNat ≤ 57 := by
  unfold isDig at h
  simp only [Bool.and_eq_true, decide_eq_true_eq] at h
  exact h

/-- A digit character is not `parseInt` whitespace. -/
theorem isDig_not_space {c : Char} (h : isDig c = true) : isJsSpace c = false := by
  have h48 := (isDig_bounds h).1
  unfold isJsSpace
  rw [char_beq_false_of_toNat_lt h48 (by decide), char_beq_false_of_toNat_lt h48 (by decide),
      char_beq_false_of_toNat_lt h48 (by decide), char_beq_false_of_toNat_lt h48 (by decide),
      char_beq_false_of_toNat_lt h48 (by decide), char_beq_false_of_toNat_lt h48 (by decide)]
  rfl

/-- `takeWhile` keeps a list all of whose members satisfy the predicate. -/
theorem takeWhile_of_all {p : Char → Bool} :
    ∀ l : List Char, l.all p = true → l.takeWhile p = l := by
  intro l h
  induction l with
  | nil => rfl
  | cons c cs ih =>
    rw [List.all_cons, Bool.and_eq_true] at h
    rw [List.takeWhile_cons_of_pos h.1, ih h.2]

/-- Every character `digitChar` produces passes the digit test. -/
theorem digitChar_isDig (d : Nat) : isDig (digitChar d) = true := by
  unfold digitChar
  split_ifs <;> decide

/-- Reading back the code of a produced digit recovers the digit. -/
theorem digitChar_toNat {d : Nat} (h : d < 10) : (digitChar d).toNat = 48 + d := by
  interval_cases d <;> decide

/-- Decimal value of a one-digit list. -/
theorem digitsVal_single (c : Char) : digitsVal [c] = c.toNat - 48 := by
  simp [digitsVal]

/-- Appending one digit multiplies the value by ten and adds the digit. -/
theorem digitsVal_append (l : List Char) (c : Char) :
    digitsVal (l ++ [c]) = digitsVal l * 10 + (c.toNat - 48) := by
  simp [digitsVal, List.foldl_append]

/-- With enough fuel the rendering is non-empty, all digits, and reads
back to the rendered number. -/
theorem natToDigitsAux_spec :
    ∀ fuel n : Nat, n < fuel →
      natToDigitsAux fuel n ≠ [] ∧ (natToDigitsAux fuel n).all isDig = true ∧
        digitsVal (natToDigitsAux fuel n) = n := by
  intro fuel
  induction fuel with
  | zero => intro n h; omega
  | succ f ih =>
    intro n h
    by_cases h10 : n < 10
    · refine ⟨by simp [natToDigitsAux, h10], by simp [natToDigitsAux, h10, digitChar_isDig], ?_⟩
      rw [show natToDigitsAux (f + 1) n = [digitChar n] from by simp [natToDigitsAux, h10]]
      rw [digitsVal_single, digitChar_toNat h10]
      omega
    · have hdiv : n / 10 < f := by
        have h1 : 0 < n := by omega
        have h2 := Nat.div_lt_self h1 (by omega : 1 < 10)
        omega
      obtain ⟨hne, hall, hval⟩ := ih (n / 10) hdiv
      have heq : natToDigitsAux (f + 1) n = natToDigitsAux f (n / 10) ++ [digitChar (n % 10)] := by
        simp [natToDigitsAux, h10]
      refine ⟨by simp [heq], ?_, ?_⟩
      · simp [heq, List.all_append, hall, digitChar_isDig]
      · rw [heq, digitsVal_append, hval, digitChar_toNat (Nat.mod_lt n (by omega))]
        omega

/-- The decimal rendering is non-empty, all digits, and reads back. -/
theorem natToDigits_spec (n : Nat) :
    natToDigits n ≠ [] ∧ (natToDigits n).all isDig = true ∧
      digitsVal (natToDigits n) = n :=
  natToDigitsAux_spec (n + 1) n (Nat.lt_succ_self n)

/-- `parseInt` on a pure digit string yields its decimal value. -/
theorem parseInt10_all_digits (c : Char) (cs : List Char)
    (hall : (c :: cs).all isDig = true) :
    parseInt10 (String.mk (c :: cs)) = some ((digitsVal (c :: cs) : Nat) : Int) := by
  have hc : isDig c = true := by
    rw [List.all_cons, Bool.and_eq_true] at hall
    exact hall.1
  have h48 := (isDig_bounds hc).1
  have hminus : (c == '-') = false := char_beq_false_of_toNat_lt h48 (by decide)
  have hplus : (c == '+') = false := char_beq_false_of_toNat_lt h48 (by decide)
  have hdata : (String.mk (c :: cs)).data = c :: cs := rfl
  unfold parseInt10
  rw [hdata, List.dropWhile_cons_of_neg (by simp [isDig_not_space hc])]
  simp [parseSigned, hminus, hplus, parseDigits, takeWhile_of_all (c :: cs) hall]

/-- `parseInt` of the rendering of a non-negative integer recovers it. -/
theorem parseInt10_int_roundtrip {n : Int} (h0 : 0 ≤ n) :
    parseInt10 (jsToString (JSVal.num n)) = some n := by
  have hn : ¬(n < 0) := by omega
  have hts : jsToString (JSVal.num n) = String.mk (natToDigits n.toNat) := by
    simp [jsToString, intToDecString, hn]
  obtain ⟨hne, hall, hval⟩ := natToDigits_spec n.toNat
  rw [hts]
  cases hl : natToDigits n.toNat with
  | nil => exact absurd hl hne
  | cons c cs =>
    rw [hl] at hall hval
    rw [parseInt10_all_digits c cs hall, hval]
    congr 1
    exact Int.toNat_of_nonneg h0

/-- Claim C1: the catch-wrapped tool operations convert every runner
outcome into a returned result, but the version tools have no try/catch:
a spawn-level failure (missing binary) propagates to the caller as an
exception instead of a `success=false` result. -/
theorem version_tools_propagate_spawn_exception :
    (Coleslaw.versionExecute missingBinaryRunner).1 = Except.error spawnErrorMsg ∧
    (Scalatex.versionExecute missingBinaryRunner).1 = Except.error spawnErrorMsg ∧
    (Franklin.versionExecute missingBinaryRunner).1 = Except.error spawnErrorMsg ∧
    (∀ (r : Runner) (path title : JSVal),
      exceptIsOk (Coleslaw.newPostExecute r path title).1 = true) := by
  refine ⟨by decide, by decide, by decide, ?_⟩
  intro r path title
  cases hp : Coleslaw.validatePath path with
  | error e => simp [Coleslaw.newPostExecute, hp, exceptIsOk]
  | ok sp =>
    cases ht : sanitizeLispString title with
    | error e => simp [Coleslaw.newPostExecute, hp, ht, exceptIsOk]
    | ok st => simp [Coleslaw.newPostExecute, hp, ht, caught_isOk]

/-- Claim C2: a string holding a declared dangerous metacharacter makes
the ecosystem's sanitizer fail, and a tool operation receiving it
returns a failure result with an empty spawn log: the command runner is
never invoked. -/
theorem dangerous_metachar_never_spawns (s t : String) (c d : Char)
    (hcl : c ∈ lispRejectChars) (hcs : c ∈ s.data)
    (hdj : d ∈ juliaRejectChars) (hdt : d ∈ t.data) :
    isErr (sanitizeLispString (JSVal.str s)) = true ∧
    isErr (sanitizeJuliaString (JSVal.str t)) = true ∧
    (∀ (r : Runner) (path : JSVal),
      (Coleslaw.newPostExecute r path (JSVal.str s)).2 = [] ∧
      resultFailed (Coleslaw.newPostExecute r path (JSVal.str s)).1 = true) ∧
    (∀ (r : Runner) (path : JSVal),
      (Franklin.newsiteExecute r path (JSVal.str t)).2 = [] ∧
      resultFailed (Franklin.newsiteExecute r path (JSVal.str t)).1 = true) := by
  have hl := sanitizeLisp_rejects hcl hcs
  have hj := sanitizeJulia_rejects hdj hdt
  have htt : (JSVal.str t).truthy = true := truthy_str (mem_data_ne_empty hdt)
  refine ⟨by rw [hl]; rfl, by rw [hj]; rfl, ?_, ?_⟩
  · intro r path
    cases hp : Coleslaw.validatePath path with
    | error e => constructor <;> simp [Coleslaw.newPostExecute, hp, resultFailed, valFailure]
    | ok sp => constructor <;> simp [Coleslaw.newPostExecute, hp, hl, resultFailed, valFailure]
  · intro r path
    cases hp : Franklin.validatePath path with
    | error e => constructor <;> simp [Franklin.newsiteExecute, hp, resultFailed, valFailure]
    | ok sp => constructor <;> simp [Franklin.newsiteExecute, hp, htt, hj, resultFailed, valFailure]

/-- Claim C2 witness: a paren blocks the Lisp tool and a backtick blocks
the Julia tool, with no spawn recorded. -/
theorem dangerous_metachar_never_spawns_witness :
    isErr (sanitizeLispString (JSVal.str lispBadInput)) = true ∧
    isErr (sanitizeJuliaString (JSVal.str juliaBadInput)) = true ∧
    (Coleslaw.newPostExecute presentBinaryRunner JSVal.undef (JSVal.str lispBadInput)).2 = [] ∧
    resultFailed (Coleslaw.newPostExecute presentBinaryRunner JSVal.undef
      (JSVal.str lispBadInput)).1 = true ∧
    (Franklin.newsiteExecute presentBinaryRunner JSVal.undef (JSVal.str juliaBadInput)).2 = [] ∧
    resultFailed (Franklin.newsiteExecute presentBinaryRunner JSVal.undef
      (JSVal.str juliaBadInput)).1 = true := by
  have h := dangerous_metachar_never_spawns lispBadInput juliaBadInput '(' backtickChar
    (by decide) (by decide) (by decide) (by decide)
  exact ⟨h.1, h.2.1, (h.2.2.1 presentBinaryRunner JSVal.undef).1,
    (h.2.2.1 presentBinaryRunner JSVal.undef).2,
    (h.2.2.2 presentBinaryRunner JSVal.undef).1,
    (h.2.2.2 presentBinaryRunner JSVal.undef).2⟩

/-- Claim C3: a successful version probe returns a result whose `code`
field is absent (`none`), not the exit code 0 the result contract
promises; the field set is therefore not `{success, stdout, stderr, code}`. -/
theorem version_result_omits_code_field :
    (Coleslaw.versionExecute presentBinaryRunner).1 =
      Except.ok ({ success := true, stdout := "1.0.0", stderr := "", code := none }) ∧
    (Franklin.versionExecute presentBinaryRunner).1 =
      Except.ok ({ success := true, stdout := "1.0.0", stderr := "", code := none }) := by
  exact ⟨by decide, by decide⟩

/-- Claim C4: every path string containing the substring ".." is
rejected by the validatePath of all three adapters, whatever else the
string contains. -/
theorem validatePath_rejects_traversal (s : String) (h : jsIncludes s dotdot = true) :
    isErr (Coleslaw.validatePath (JSVal.str s)) = true ∧
    isErr (Franklin.validatePath (JSVal.str s)) = true ∧
    isErr (Scalatex.validatePath (JSVal.str s)) = true := by
  have hne : s ≠ "" := jsIncludes_dotdot_ne_empty h
  have htr : (JSVal.str s).truthy = true := truthy_str hne
  refine ⟨?_, ?_, ?_⟩
  · cases hs : sanitizeLispString (JSVal.str s) with
    | error e => simp [Coleslaw.validatePath, htr, hs, isErr]
    | ok u =>
      have hu : u = s := sanitizeLisp_ok_eq hs
      subst hu
      simp [Coleslaw.validatePath, htr, hs, h, isErr]
  · cases hs : sanitizeJuliaString (JSVal.str s) with
    | error e => simp [Franklin.validatePath, htr, hs, isErr]
    | ok u =>
      have hu : u = s := sanitizeJulia_ok_eq hs
      subst hu
      simp [Franklin.validatePath, htr, hs, h, isErr]
  · simp [Scalatex.validatePath, htr, h, isErr]

/-- Claim C4 witness: the traversal input "../../etc" is rejected by the
three validatePath functions. -/
theorem validatePath_rejects_traversal_witness :
    jsIncludes ("../../etc") dotdot = true ∧
    isErr (Coleslaw.validatePath (JSVal.str ("../../etc"))) = true ∧
    isErr (Franklin.validatePath (JSVal.str ("../../etc"))) = true ∧
    isErr (Scalatex.validatePath (JSVal.str ("../../etc"))) = true :=
  ⟨by decide, validatePath_rejects_traversal ("../../etc") (by decide)⟩

/-- Claim C5 counterexample: the non-integer input "8080xyz" does not
make validatePort fail; parseInt takes the digit prefix and the call
returns 8080. -/
theorem validatePort_nonint_accepted :
    validatePort (JSVal.str ("8080xyz")) = Except.ok 8080 ∧
    isErr (validatePort (JSVal.str ("8080xyz"))) = false := by
  exact ⟨by decide, by decide⟩

/-- Claim C5 amended: validatePort fails when the longest leading signed
digit prefix of the stringified input is absent or parses outside
[1, 65535]; any input whose parsed prefix is in range returns that parsed
value (even with trailing garbage), and an integer input in range is
returned unchanged. -/
theorem validatePort_amended (n : Int) (h1 : 1 ≤ n) (h2 : n ≤ 65535) :
    validatePort (JSVal.num n) = Except.ok n ∧
    (∀ v : JSVal, parseInt10 (jsToString v) = none →
      validatePort v = Except.error portErrorMsg) ∧
    (∀ (v : JSVal) (p : Int), parseInt10 (jsToString v) = some p → p < 1 →
      validatePort v = Except.error portErrorMsg) ∧
    (∀ (v : JSVal) (p : Int), parseInt10 (jsToString v) = some p → 65535 < p →
      validatePort v = Except.error portErrorMsg) ∧
    (∀ (v : JSVal) (p : Int), parseInt10 (jsToString v) = some p → 1 ≤ p → p ≤ 65535 →
      validatePort v = Except.ok p) := by
  refine ⟨?_, ?_, ?_, ?_, ?_⟩
  · unfold validatePort
    rw [parseInt10_int_roundtrip (by omega)]
    simp only [portCheck]
    rw [if_neg (by omega), if_neg (by omega)]
  · intro v hv
    unfold validatePort
    rw [hv]
    rfl
  · intro v p hv hp
    unfold validatePort
    rw [hv]
    simp only [portCheck]
    rw [if_pos hp]
  · intro v p hv hp
    unfold validatePort
    rw [hv]
    simp only [portCheck]
    rw [if_neg (by omega), if_pos hp]
  · intro v p hv hp1 hp2
    unfold validatePort
    rw [hv]
    simp only [portCheck]
    rw [if_neg (by omega), if_neg (by omega)]

/-- Claim C5 witness: the in-range integer 8080 is returned unchanged. -/
theorem validatePort_amended_witness :
    validatePort (JSVal.num 8080) = Except.ok 8080 :=
  (validatePort_amended 8080 (by decide) (by decide)).1

/-- Claim C6: from the initial state, connect against a missing binary
returns false and leaves the adapter unconnected (the implementation's
rendering of the spec's error state under `absState`), connect against a
present binary returns true and lands connected, and disconnect from any
state returns to disconnected. -/
theorem lifecycle_state_machine :
    (Coleslaw.connect missingBinaryRunner false = (false, false) ∧
     Franklin.connect missingBinaryRunner false = (false, false) ∧
     Scalatex.connect missingBinaryRunner false = (false, false) ∧
     specConnect false LifecycleState.disconnected = (LifecycleState.error, false) ∧
     absState LifecycleState.error = false) ∧
    (Coleslaw.connect presentBinaryRunner false = (true, true) ∧
     Franklin.connect presentBinaryRunner false = (true, true) ∧
     Scalatex.connect presentBinaryRunner false = (true, true) ∧
     specConnect true LifecycleState.disconnected = (LifecycleState.connected, true) ∧
     absState LifecycleState.connected = true) ∧
    (∀ st : Bool, Coleslaw.disconnect st = false ∧ Franklin.disconnect st = false ∧
      Scalatex.disconnect st = false) ∧
    (∀ σ : LifecycleState, specDisconnect σ = LifecycleState.disconnected ∧
      absState (specDisconnect σ) = Coleslaw.disconnect (absState σ)) ∧
    (∀ st : Bool, Coleslaw.isConnected st = st ∧ Franklin.isConnected st = st ∧
      Scalatex.isConnected st = st) := by
  refine ⟨by decide, by decide, ?_, ?_, ?_⟩
  · intro st
    exact ⟨rfl, rfl, rfl⟩
  · intro σ
    cases σ <;> exact ⟨rfl, rfl⟩
  · intro st
    exact ⟨rfl, rfl, rfl⟩

/-- Claim C7: invoking coleslaw_new_post with the required title missing
does not fail: the sanitizer turns the missing title into the empty
string and sbcl is spawned with `(coleslaw:new-post "")`; with a working
binary the call even reports success. -/
theorem new_post_missing_required_title_spawns :
    (Coleslaw.newPostExecute presentBinaryRunner JSVal.undef JSVal.undef).2 =
      [{ bin := Coleslaw.sblPath,
         args := ["--eval", Coleslaw.qlExpr, "--eval", "(coleslaw:new-post \"\")", "--quit"],
         cwd := some ("."), timeoutMs := none }] ∧
    (Coleslaw.newPostExecute presentBinaryRunner JSVal.undef JSVal.undef).1 =
      Except.ok ({ success := true, stdout := "1.0.0", stderr := "", code := some 0 }) := by
  exact ⟨by decide, by decide⟩

/-- Claim C8 counterexample: the ScalaTex validatePath maps a missing
path to null, not to the string ".". -/
theorem scalatex_missing_path_is_null :
    Scalatex.validatePath JSVal.undef = Except.ok JSVal.null ∧
    JSVal.null ≠ JSVal.str (".") := by
  exact ⟨by decide, by decide⟩

/-- Claim C8 amended: the Coleslaw and Franklin validatePath map missing
input (undefined or null) to "."; the ScalaTex validatePath maps it to
null. -/
theorem validatePath_missing_input :
    Coleslaw.validatePath JSVal.undef = Except.ok (".") ∧
    Coleslaw.validatePath JSVal.null = Except.ok (".") ∧
    Franklin.validatePath JSVal.undef = Except.ok (".") ∧
    Franklin.validatePath JSVal.null = Except.ok (".") ∧
    Scalatex.validatePath JSVal.undef = Except.ok JSVal.null ∧
    Scalatex.validatePath JSVal.null = Except.ok JSVal.null := by
  decide

/-- Claim C9: no spawn performed by the command runners carries any
timeout bound: every recorded call has `timeoutMs = none`, for every
runner, argument list and working directory. -/
theorem command_runner_has_no_timeout (r : Runner) (args : List String)
    (cwd : Option String) (codeStr lispExpr : String) :
    ((Scalatex.runCommand r args cwd).2.all (fun c => c.timeoutMs == none)) = true ∧
    ((Scalatex.runSbt r args cwd).2.all (fun c => c.timeoutMs == none)) = true ∧
    ((Franklin.runJulia r codeStr cwd).2.all (fun c => c.timeoutMs == none)) = true ∧
    ((Coleslaw.runColeslaw r lispExpr cwd).2.all (fun c => c.timeoutMs == none)) = true := by
  refine ⟨?_, ?_, ?_, ?_⟩
  · unfold Scalatex.runCommand
    rw [spawnStep_log]
    rfl
  · unfold Scalatex.runSbt
    rw [spawnStep_log]
    rfl
  · unfold Franklin.runJulia
    rw [spawnStep_log]
    rfl
  · unfold Coleslaw.runColeslaw
    rw [spawnStep_log]
    rfl

/-- Claim C10: a non-string parameter is turned into the empty string by
both sanitizers instead of failing, and the tool operation proceeds to
spawn with the empty string substituted into the generated expression. -/
theorem nonstring_param_becomes_empty (v : JSVal) (h : v.isString = false) :
    sanitizeLispString v = Except.ok ("") ∧
    sanitizeJuliaString v = Except.ok ("") ∧
    (∀ r : Runner,
      (Coleslaw.newPostExecute r JSVal.undef v).2 =
        [{ bin := Coleslaw.sblPath,
           args := ["--eval", Coleslaw.qlExpr, "--eval", "(coleslaw:new-post \"\")", "--quit"],
           cwd := some ("."), timeoutMs := none }]) := by
  have h1 : sanitizeLispString v = Except.ok ("") := by
    cases v with
    | undef => rfl
    | null => rfl
    | bool b => rfl
    | num m => rfl
    | str s => simp [JSVal.isString] at h
  have h2 : sanitizeJuliaString v = Except.ok ("") := by
    cases v with
    | undef => rfl
    | null => rfl
    | bool b => rfl
    | num m => rfl
    | str s => simp [JSVal.isString] at h
  refine ⟨h1, h2, ?_⟩
  intro r
  have hp : Coleslaw.validatePath JSVal.undef = Except.ok (".") := rfl
  simp only [Coleslaw.newPostExecute, hp, h1]
  rw [caught_log]
  unfold Coleslaw.runColeslaw
  rw [spawnStep_log]
  rfl

/-- Claim C10 witness: a numeric title becomes the empty string and the
spawn still happens. -/
theorem nonstring_param_becomes_empty_witness :
    sanitizeLispString (JSVal.num 42) = Except.ok ("") ∧
    sanitizeJuliaString (JSVal.num 42) = Except.ok ("") ∧
    (Coleslaw.newPostExecute presentBinaryRunner JSVal.undef (JSVal.num 42)).2 =
      [{ bin := Coleslaw.sblPath,
         args := ["--eval", Coleslaw.qlExpr, "--eval", "(coleslaw:new-post \"\")", "--quit"],
         cwd := some ("."), timeoutMs := none }] := by
  have h := nonstring_param_becomes_empty (JSVal.num 42) (by decide)
  exact ⟨h.1, h.2.1, h.2.2 presentBinaryRunner⟩
